import Mathlib

/-!
Verification of the addition-circuit zk-proof example (`src/bin/addition.rs`).

The repository defines an `AdditionCircuit` over the BLS12-381 scalar field
`Fr`, synthesizes it into an R1CS constraint system (two witness variables
`x`, `y`, one public-input variable `z`, one constraint `x + y = z`), and
drives a Groth16 Setup/Prove/Verify lifecycle on it.

We embed:
  * the field `Fr` as `ZMod r` with `r` the BLS12-381 scalar-field modulus;
  * the circuit struct, its `clone`, and `generate_constraints` as explicit
    state passing over a `ConstraintSystem` record (the allocator calls
    `new_witness` / `new_input` and `enforce_equal` follow the behaviour the
    spec gives for the Variable Allocator: in a phase that requires concrete
    values a missing assignment yields `AssignmentMissing`; counters are
    bumped before the value closure is consulted, and an early `?` return
    leaves the mutations made so far in place);
  * the external Groth16 backend as the idealized SNARK the spec's black-box
    interface describes: a proof binds the witness assignment produced by
    synthesis, and verification checks the constraint system against the
    supplied public inputs, returning `Ok false` (not an error) on a
    well-formed mismatch.
-/

namespace ZKAdd

/-- The BLS12-381 scalar-field modulus (the order of `Fr`). -/
def r : ℕ := 52435875175126190479447740508185965837690552500527637822603658699938581184513

/-- The scalar field `Fr` of BLS12-381, as integers mod `r`. -/
abbrev Fr := ZMod r

instance : NeZero r := ⟨by norm_num [r]⟩

/-- `Fr::from(n u32)`: field element from a small unsigned integer. -/
def Fr.fromU32 (n : ℕ) : Fr := (n : Fr)

/-- The circuit struct: three optional field values (`Option<Fr>` in the source). -/
structure AdditionCircuit where
  x : Option Fr
  y : Option Fr
  z : Option Fr

/-- `impl Clone for AdditionCircuit`: clones each of the three fields. -/
def AdditionCircuit.clone (c : AdditionCircuit) : AdditionCircuit :=
  { x := c.x, y := c.y, z := c.z }

/-- Synthesis mode of the constraint system: Setup builds only the shape,
Prove requires concrete values. -/
inductive SynthesisMode where
  | setup
  | prove
deriving DecidableEq, Repr

/-- Errors of the backend interface (`ark_relations::r1cs::SynthesisError`
variants the program can encounter). -/
inductive SynthesisError where
  | assignmentMissing
  | malformedVerifyingKey
deriving DecidableEq, Repr

/-- A variable allocated in the constraint system: a witness (secret) variable
or a public-input variable, identified by allocation index. -/
inductive R1CSVar where
  | witnessVar (idx : ℕ)
  | inputVar (idx : ℕ)
deriving DecidableEq, Repr

/-- A linear combination of allocated variables with field coefficients. -/
abbrev LC := List (Fr × R1CSVar)

/-- The transient constraint-system context mutated by synthesis.  We track
only the circuit-allocated variables; the library-internal constant-one
instance variable is not touched by the source and is omitted, so
`inputAssignment` matches exactly the public-input list handed to Verify. -/
structure ConstraintSystem where
  mode : SynthesisMode
  numWitness : ℕ
  numInput : ℕ
  witnessAssignment : List Fr
  inputAssignment : List Fr
  constraints : List (LC × LC)

/-- A fresh constraint-system context in the given mode. -/
def emptyCS (m : SynthesisMode) : ConstraintSystem :=
  { mode := m, numWitness := 0, numInput := 0,
    witnessAssignment := [], inputAssignment := [], constraints := [] }

/-- A symbolic field variable: its linear combination over allocated
variables, and (in prove mode) its concrete value. -/
structure FpVar where
  lc : LC
  value : Option Fr

/-- Modelled from the spec: the Variable Allocator's witness allocation
(`FpVar::new_witness`).  The allocation index is taken and the counter bumped
first; in a phase requiring concrete values, an absent value surfaces
`AssignmentMissing`, otherwise the assignment is recorded. -/
def newWitness (cs : ConstraintSystem) (v : Option Fr) :
    ConstraintSystem × Except SynthesisError FpVar :=
  let idx := cs.numWitness
  let cs1 := { cs with numWitness := idx + 1 }
  match cs1.mode with
  | .setup => (cs1, .ok ⟨[(1, .witnessVar idx)], none⟩)
  | .prove =>
    match v with
    | none => (cs1, .error .assignmentMissing)
    | some a =>
      ({ cs1 with witnessAssignment := cs1.witnessAssignment ++ [a] },
       .ok ⟨[(1, .witnessVar idx)], some a⟩)

/-- Modelled from the spec: the Variable Allocator's public-input allocation
(`FpVar::new_input`), under the same missing-value rule as `newWitness`. -/
def newInput (cs : ConstraintSystem) (v : Option Fr) :
    ConstraintSystem × Except SynthesisError FpVar :=
  let idx := cs.numInput
  let cs1 := { cs with numInput := idx + 1 }
  match cs1.mode with
  | .setup => (cs1, .ok ⟨[(1, .inputVar idx)], none⟩)
  | .prove =>
    match v with
    | none => (cs1, .error .assignmentMissing)
    | some a =>
      ({ cs1 with inputAssignment := cs1.inputAssignment ++ [a] },
       .ok ⟨[(1, .inputVar idx)], some a⟩)

/-- `&x + &y` on field variables: concatenates the linear combinations and
adds the values when both are present. -/
def FpVar.add (a b : FpVar) : FpVar :=
  { lc := a.lc ++ b.lc,
    value := match a.value, b.value with
             | some u, some v => some (u + v)
             | _, _ => none }

/-- `sum.enforce_equal(&z)`: appends one equality constraint (lhs = rhs)
to the constraint system. -/
def enforceEqual (cs : ConstraintSystem) (a b : FpVar) :
    ConstraintSystem × Except SynthesisError Unit :=
  ({ cs with constraints := cs.constraints ++ [(a.lc, b.lc)] }, .ok ())

/-- `AdditionCircuit::generate_constraints`: allocate `x` and `y` as
witnesses, `z` as a public input, and enforce `x + y = z`; the `?` operator
propagates the first error, keeping the mutations made before it. -/
def generate_constraints (c : AdditionCircuit) (cs : ConstraintSystem) :
    ConstraintSystem × Except SynthesisError Unit :=
  match newWitness cs c.x with
  | (cs1, .error e) => (cs1, .error e)
  | (cs1, .ok x) =>
    match newWitness cs1 c.y with
    | (cs2, .error e) => (cs2, .error e)
    | (cs2, .ok y) =>
      match newInput cs2 c.z with
      | (cs3, .error e) => (cs3, .error e)
      | (cs3, .ok z) =>
        let sum := FpVar.add x y
        enforceEqual cs3 sum z

/-- Value of an allocated variable under a witness assignment and a
public-input assignment (out-of-range indices read as 0). -/
def varValue (wit pub : List Fr) : R1CSVar → Fr
  | .witnessVar i => wit.getD i 0
  | .inputVar i => pub.getD i 0

/-- Evaluate a linear combination under the given assignments. -/
def evalLC (wit pub : List Fr) (lc : LC) : Fr :=
  (lc.map fun p => p.1 * varValue wit pub p.2).sum

/-- Whether every constraint holds under the given assignments. -/
def satisfiedB (wit pub : List Fr) (cons : List (LC × LC)) : Bool :=
  cons.all fun c => decide (evalLC wit pub c.1 = evalLC wit pub c.2)

/-- Modelled from the spec: the Groth16 backend's ProvingKey, reduced to the
circuit shape it encodes (the trapdoor randomness is irrelevant at the
interface). -/
structure ProvingKey where
  constraints : List (LC × LC)
  numInput : ℕ

/-- Modelled from the spec: the Groth16 backend's VerifyingKey, encoding the
circuit shape a verifier checks against. -/
structure VerifyingKey where
  constraints : List (LC × LC)
  numInput : ℕ

/-- Modelled from the spec: a Proof binds the witness assignment produced by
synthesis without revealing it through the interface. -/
structure Proof where
  wit : List Fr

/-- Modelled from the spec: `Groth16::circuit_specific_setup` — synthesize the
placeholder circuit in Setup mode; on success the key pair encodes the
resulting constraint shape. -/
def setup (circuit : AdditionCircuit) :
    Except SynthesisError (ProvingKey × VerifyingKey) :=
  match generate_constraints circuit (emptyCS .setup) with
  | (cs, .ok _) =>
      .ok ({ constraints := cs.constraints, numInput := cs.numInput },
           { constraints := cs.constraints, numInput := cs.numInput })
  | (_, .error e) => .error e

/-- Modelled from the spec: `Groth16::prove` — synthesize the assigned
circuit in Prove mode; on success the proof binds the witness assignment. -/
def prove (pk : ProvingKey) (circuit : AdditionCircuit) :
    Except SynthesisError Proof :=
  match generate_constraints circuit (emptyCS .prove) with
  | (cs, .ok _) => .ok { wit := cs.witnessAssignment }
  | (_, .error e) => .error e

/-- Modelled from the spec: `Groth16::verify` — a public-input list of the
wrong length is a malformed input (an error); otherwise the check returns a
normal boolean: whether the bound witness and the supplied public inputs
satisfy the circuit's constraints. -/
def verify (vk : VerifyingKey) (publicInputs : List Fr) (proof : Proof) :
    Except SynthesisError Bool :=
  if publicInputs.length = vk.numInput then
    .ok (satisfiedB proof.wit publicInputs vk.constraints)
  else
    .error .malformedVerifyingKey

/-! ## Theorems -/

/-- C1: for all field values `a`, `b` with `c = a + b`, Setup on the
placeholder circuit, then Prove on the fully-assigned circuit, then Verify
with the single-element public-input list `[c]`, returns `true`. -/
theorem completeness (a b c : Fr) (h : c = a + b) :
    ∃ pk vk proof,
      setup ⟨none, none, none⟩ = .ok (pk, vk) ∧
      prove pk ⟨some a, some b, some c⟩ = .ok proof ∧
      verify vk [c] proof = .ok true := by
  refine ⟨⟨[([(1, .witnessVar 0), (1, .witnessVar 1)], [(1, .inputVar 0)])], 1⟩,
         ⟨[([(1, .witnessVar 0), (1, .witnessVar 1)], [(1, .inputVar 0)])], 1⟩,
         ⟨[a, b]⟩, rfl, rfl, ?_⟩
  have hs : satisfiedB [a, b] [c]
      [([(1, .witnessVar 0), (1, .witnessVar 1)], [(1, .inputVar 0)])] = true := by
    simp [satisfiedB, evalLC, varValue, h]
  simp [verify, hs]

/-- C1 witness: the concrete run a = 17, b = 2, c = 19 verifies successfully. -/
theorem completeness_witness :
    (19 : Fr) = 17 + 2 ∧
    ∃ pk vk proof,
      setup ⟨none, none, none⟩ = .ok (pk, vk) ∧
      prove pk ⟨some (17 : Fr), some 2, some 19⟩ = .ok proof ∧
      verify vk [(19 : Fr)] proof = .ok true :=
  ⟨by norm_num, completeness 17 2 19 (by norm_num)⟩

/-- C2: the proof generated from the assignment (a = 17, b = 2, c = 19),
verified against the different public input c′ = 20, yields the normal
boolean result `false`, not `true`. -/
theorem wrong_input_rejected :
    ∃ pk vk proof,
      setup ⟨none, none, none⟩ = .ok (pk, vk) ∧
      prove pk ⟨some (17 : Fr), some 2, some 19⟩ = .ok proof ∧
      verify vk [(20 : Fr)] proof = .ok false := by
  exact ⟨_, _, ⟨[17, 2]⟩, rfl, rfl, rfl⟩

/-- C3: if any of the three optional values is absent, `generate_constraints`
in a phase requiring concrete values (Prove) returns `AssignmentMissing` and
never completes successfully. -/
theorem missing_assignment_fails (c : AdditionCircuit) (cs : ConstraintSystem)
    (hm : cs.mode = .prove)
    (h : c.x = none ∨ c.y = none ∨ c.z = none) :
    (generate_constraints c cs).2 = .error .assignmentMissing := by
  obtain ⟨xv, yv, zv⟩ := c
  obtain ⟨m, nw, ni, wa, ia, cons⟩ := cs
  obtain rfl : m = SynthesisMode.prove := hm
  rcases xv with _ | a <;> rcases yv with _ | b <;> rcases zv with _ | d <;>
    simp_all [generate_constraints, newWitness, newInput, enforceEqual]

/-- C3 witness: a circuit with `x` absent fails with `AssignmentMissing` in
Prove mode. -/
theorem missing_assignment_fails_witness :
    (emptyCS .prove).mode = .prove ∧
    ((⟨none, some 1, some 2⟩ : AdditionCircuit).x = none ∨
      (⟨none, some 1, some 2⟩ : AdditionCircuit).y = none ∨
      (⟨none, some 1, some 2⟩ : AdditionCircuit).z = none) ∧
    (generate_constraints ⟨none, some 1, some 2⟩ (emptyCS .prove)).2 =
      .error .assignmentMissing :=
  ⟨rfl, Or.inl rfl,
    missing_assignment_fails ⟨none, some 1, some 2⟩ (emptyCS .prove) rfl (Or.inl rfl)⟩

/-- C4: synthesis on the all-unknown circuit (Setup phase) and on a
fully-assigned satisfying circuit (Prove phase) allocates exactly two witness
variables and one public-input variable in the same order, emits exactly one
constraint, the constraint lists are identical, and both runs succeed. -/
theorem shape_stability (a b : Fr) :
    (generate_constraints ⟨none, none, none⟩ (emptyCS .setup)).1.numWitness = 2 ∧
    (generate_constraints ⟨some a, some b, some (a + b)⟩ (emptyCS .prove)).1.numWitness = 2 ∧
    (generate_constraints ⟨none, none, none⟩ (emptyCS .setup)).1.numInput = 1 ∧
    (generate_constraints ⟨some a, some b, some (a + b)⟩ (emptyCS .prove)).1.numInput = 1 ∧
    (generate_constraints ⟨none, none, none⟩ (emptyCS .setup)).1.constraints =
      (generate_constraints ⟨some a, some b, some (a + b)⟩ (emptyCS .prove)).1.constraints ∧
    (generate_constraints ⟨none, none, none⟩ (emptyCS .setup)).1.constraints.length = 1 ∧
    (generate_constraints ⟨none, none, none⟩ (emptyCS .setup)).2 = .ok () ∧
    (generate_constraints ⟨some a, some b, some (a + b)⟩ (emptyCS .prove)).2 = .ok () :=
  ⟨rfl, rfl, rfl, rfl, rfl, rfl, rfl, rfl⟩

/-- C5: on a fully-assigned circuit in Prove mode, `generate_constraints`
allocates `x` and `y` as witness variables, `z` as a public-input variable,
and emits exactly one equality constraint whose left side evaluates to the
field sum `x + y` and whose right side is the public-output variable;
it returns success. -/
theorem generate_constraints_assigned (a b d : Fr) :
    generate_constraints ⟨some a, some b, some d⟩ (emptyCS .prove) =
      ({ mode := .prove, numWitness := 2, numInput := 1,
         witnessAssignment := [a, b], inputAssignment := [d],
         constraints :=
           [([(1, .witnessVar 0), (1, .witnessVar 1)], [(1, .inputVar 0)])] },
       .ok ()) ∧
    evalLC [a, b] [d] [(1, .witnessVar 0), (1, .witnessVar 1)] = a + b ∧
    evalLC [a, b] [d] [(1, .inputVar 0)] = d := by
  refine ⟨rfl, ?_, ?_⟩ <;> simp [evalLC, varValue]

/-- C6: Verify on a well-formed key, a public-input list of the declared
length, and a well-formed proof that does not satisfy the constraints with
those public inputs, returns `false` through the success path, not an
error. -/
theorem verify_invalid_returns_false (vk : VerifyingKey) (pub : List Fr)
    (proof : Proof)
    (hlen : pub.length = vk.numInput)
    (hmismatch : satisfiedB proof.wit pub vk.constraints = false) :
    verify vk pub proof = .ok false := by
  simp [verify, hlen, hmismatch]

/-- C6 witness: the mismatching public input 20 against the proof bound to
witnesses 17 and 2 yields `Ok false`. -/
theorem verify_invalid_returns_false_witness :
    [(20 : Fr)].length =
      (VerifyingKey.mk [([(1, .witnessVar 0), (1, .witnessVar 1)],
        [(1, .inputVar 0)])] 1).numInput ∧
    satisfiedB (Proof.mk [(17 : Fr), 2]).wit [(20 : Fr)]
      (VerifyingKey.mk [([(1, .witnessVar 0), (1, .witnessVar 1)],
        [(1, .inputVar 0)])] 1).constraints = false ∧
    verify (VerifyingKey.mk [([(1, .witnessVar 0), (1, .witnessVar 1)],
        [(1, .inputVar 0)])] 1) [(20 : Fr)] (Proof.mk [(17 : Fr), 2]) =
      .ok false :=
  ⟨rfl, rfl,
    verify_invalid_returns_false
      (VerifyingKey.mk [([(1, .witnessVar 0), (1, .witnessVar 1)],
        [(1, .inputVar 0)])] 1) [(20 : Fr)] (Proof.mk [(17 : Fr), 2]) rfl rfl⟩

/-- C7: the field element computed as `Fr::from(17) + Fr::from(2)` equals an
independently constructed `Fr::from(19)` under the field's equality (the sum
is exactly 19, notwithstanding the source comment claiming z = 18). -/
theorem field_sum_17_2_eq_19 : Fr.fromU32 17 + Fr.fromU32 2 = Fr.fromU32 19 := by
  norm_num [Fr.fromU32]

/-- C8: Verify is deterministic — two calls with the same verifying key,
public-input list, and proof return the same result. -/
theorem verify_deterministic (vk : VerifyingKey) (pub : List Fr) (proof : Proof)
    (r₁ r₂ : Except SynthesisError Bool)
    (h₁ : verify vk pub proof = r₁) (h₂ : verify vk pub proof = r₂) :
    r₁ = r₂ :=
  h₁.symm.trans h₂

/-- C8 witness: a concrete repeated verification returns the same boolean. -/
theorem verify_deterministic_witness :
    verify (VerifyingKey.mk [([(1, .witnessVar 0), (1, .witnessVar 1)],
        [(1, .inputVar 0)])] 1) [(19 : Fr)] (Proof.mk [(17 : Fr), 2]) =
      .ok true ∧
    (Except.ok true : Except SynthesisError Bool) = .ok true :=
  ⟨rfl,
    verify_deterministic
      (VerifyingKey.mk [([(1, .witnessVar 0), (1, .witnessVar 1)],
        [(1, .inputVar 0)])] 1) [(19 : Fr)] (Proof.mk [(17 : Fr), 2])
      (.ok true) (.ok true) rfl rfl⟩

/-- C9: `clone` copies all three optional fields by value, and synthesizing
the clone behaves identically to synthesizing the original. -/
theorem clone_preserves_fields (c : AdditionCircuit) (cs : ConstraintSystem) :
    c.clone.x = c.x ∧ c.clone.y = c.y ∧ c.clone.z = c.z ∧
    generate_constraints c.clone cs = generate_constraints c cs :=
  ⟨rfl, rfl, rfl, rfl⟩

/-- C10: in Prove mode, a missing value makes `generate_constraints` fail at
the first absent value in the order x, y, z and short-circuit: no later
variable is allocated and the equality constraint is never emitted; in
particular, with `x` absent neither the witness for `y` nor the public input
for `z` is added. -/
theorem missing_short_circuits (c : AdditionCircuit) (cs : ConstraintSystem)
    (a b : Fr) (hm : cs.mode = .prove) :
    (c.x = none →
      (generate_constraints c cs).2 = .error .assignmentMissing ∧
      (generate_constraints c cs).1.numWitness = cs.numWitness + 1 ∧
      (generate_constraints c cs).1.witnessAssignment = cs.witnessAssignment ∧
      (generate_constraints c cs).1.numInput = cs.numInput ∧
      (generate_constraints c cs).1.inputAssignment = cs.inputAssignment ∧
      (generate_constraints c cs).1.constraints = cs.constraints) ∧
    (c.x = some a → c.y = none →
      (generate_constraints c cs).2 = .error .assignmentMissing ∧
      (generate_constraints c cs).1.numWitness = cs.numWitness + 2 ∧
      (generate_constraints c cs).1.witnessAssignment = cs.witnessAssignment ++ [a] ∧
      (generate_constraints c cs).1.numInput = cs.numInput ∧
      (generate_constraints c cs).1.inputAssignment = cs.inputAssignment ∧
      (generate_constraints c cs).1.constraints = cs.constraints) ∧
    (c.x = some a → c.y = some b → c.z = none →
      (generate_constraints c cs).2 = .error .assignmentMissing ∧
      (generate_constraints c cs).1.numInput = cs.numInput + 1 ∧
      (generate_constraints c cs).1.inputAssignment = cs.inputAssignment ∧
      (generate_constraints c cs).1.constraints = cs.constraints) := by
  obtain ⟨xv, yv, zv⟩ := c
  obtain ⟨m, nw, ni, wa, ia, cons⟩ := cs
  obtain rfl : m = SynthesisMode.prove := hm
  refine ⟨?_, ?_, ?_⟩
  · rintro rfl
    simp [generate_constraints, newWitness]
  · rintro rfl rfl
    simp [generate_constraints, newWitness]
  · rintro rfl rfl rfl
    simp [generate_constraints, newWitness, newInput]

/-- C10 witness: with `x` absent and `y`, `z` present, Prove-mode synthesis
fails with `AssignmentMissing`, allocates no later variable, and emits no
constraint. -/
theorem missing_short_circuits_witness :
    (emptyCS .prove).mode = .prove ∧
    (⟨none, some 1, some 2⟩ : AdditionCircuit).x = none ∧
    ((generate_constraints ⟨none, some 1, some 2⟩ (emptyCS .prove)).2 =
        .error .assignmentMissing ∧
      (generate_constraints ⟨none, some 1, some 2⟩ (emptyCS .prove)).1.numWitness =
        (emptyCS .prove).numWitness + 1 ∧
      (generate_constraints ⟨none, some 1, some 2⟩ (emptyCS .prove)).1.witnessAssignment =
        (emptyCS .prove).witnessAssignment ∧
      (generate_constraints ⟨none, some 1, some 2⟩ (emptyCS .prove)).1.numInput =
        (emptyCS .prove).numInput ∧
      (generate_constraints ⟨none, some 1, some 2⟩ (emptyCS .prove)).1.inputAssignment =
        (emptyCS .prove).inputAssignment ∧
      (generate_constraints ⟨none, some 1, some 2⟩ (emptyCS .prove)).1.constraints =
        (emptyCS .prove).constraints) :=
  ⟨rfl, rfl,
    (missing_short_circuits ⟨none, some 1, some 2⟩ (emptyCS .prove) 1 2 rfl).1 rfl⟩

end ZKAdd
